import Mathlib

/-!
Verification of the JWT authentication middleware of the go-fiber
boilerplate (src/internal/middleware/auth.go, the current revision with
kid matching and the stale grace period).

The Go code is shallowly embedded: the HTTP fetch of the JWKS document is
represented by a `FetchResult` value describing the outcome of the single
`http.Get` the call performs, the package-level maps `cachedKeys` /
`cacheExpiries` become an explicit `CacheState` threaded through the
functions, `time.Now()` becomes an explicit `now` parameter (integer
nanoseconds, matching `time.Duration`), and the base64url / big-integer
arithmetic of `getSupabasePublicKey` is implemented concretely.
-/

namespace Middleware

/-- Decidable equality for `Except`, needed to evaluate concrete runs of
the fallible embedded functions. -/
instance {ε α : Type _} [DecidableEq ε] [DecidableEq α] : DecidableEq (Except ε α) := fun x y =>
  match x, y with
  | Except.error e1, Except.error e2 =>
    if h : e1 = e2 then Decidable.isTrue (by rw [h])
    else Decidable.isFalse (by intro hc; cases hc; exact h rfl)
  | Except.error _, Except.ok _ => Decidable.isFalse (by intro hc; cases hc)
  | Except.ok _, Except.error _ => Decidable.isFalse (by intro hc; cases hc)
  | Except.ok a1, Except.ok a2 =>
    if h : a1 = a2 then Decidable.isTrue (by rw [h])
    else Decidable.isFalse (by intro hc; cases hc; exact h rfl)

/-- Go `strings.Split` restricted to a single-character separator, as used
by the middleware (`strings.Split(authHeader, " ")`): splits around every
occurrence of the separator, keeping empty fields, and yields `[""]` on the
empty string. Defined over the character list. -/
def splitCharAux (sep : Char) : List Char → List (List Char)
  | [] => [[]]
  | c :: cs =>
    let r := splitCharAux sep cs
    if c == sep then [] :: r
    else
      match r with
      | [] => [[c]]
      | g :: gs => (c :: g) :: gs

/-- Go `strings.Split s (String.singleton sep)`. -/
def goSplit (s : String) (sep : Char) : List String :=
  (splitCharAux sep s.toList).map (fun cs => String.mk cs)

/-- Value of one character of the base64url alphabet used by Go
`encoding/base64.RawURLEncoding`. -/
def b64Char (c : Char) : Option Nat :=
  if 'A' ≤ c ∧ c ≤ 'Z' then some (c.toNat - 65)
  else if 'a' ≤ c ∧ c ≤ 'z' then some (c.toNat - 97 + 26)
  else if '0' ≤ c ∧ c ≤ '9' then some (c.toNat - 48 + 52)
  else if c = '-' then some 62
  else if c = '_' then some 63
  else none

/-- Map every character to its 6-bit value, failing on the first character
outside the alphabet (Go returns `CorruptInputError`). -/
def b64Vals : List Char → Option (List Nat)
  | [] => some []
  | c :: cs =>
    match b64Char c, b64Vals cs with
    | some v, some vs => some (v :: vs)
    | _, _ => none

/-- Reassemble 6-bit values into bytes, groups of four values giving three
bytes; a trailing group of one value is invalid (unpadded length `% 4 == 1`),
two values give one byte, three give two, with unused trailing bits ignored
as in Go's non-strict decoder. -/
def b64Group : List Nat → Option (List Nat)
  | [] => some []
  | [_] => none
  | [a, b] => some [a * 4 + b / 16]
  | [a, b, c] => some [a * 4 + b / 16, (b % 16) * 16 + c / 4]
  | a :: b :: c :: d :: rest =>
    match b64Group rest with
    | some bs => some ((a * 4 + b / 16) :: ((b % 16) * 16 + c / 4) :: ((c % 4) * 64 + d) :: bs)
    | none => none

/-- Go `base64.RawURLEncoding.DecodeString`: newline characters are ignored,
every other character must belong to the base64url alphabet. Returns the
decoded bytes. -/
def b64urlDecode (s : String) : Option (List Nat) :=
  match b64Vals (s.toList.filter (fun c => c ≠ '\r' ∧ c ≠ '\n')) with
  | some vs => b64Group vs
  | none => none

/-- Go `new(big.Int).SetBytes`: big-endian bytes to a natural number. -/
def bytesBE (bs : List Nat) : Nat :=
  bs.foldl (fun acc b => acc * 256 + b) 0

/-- Wrap an integer into the signed 64-bit range, as Go `int` arithmetic
does on overflow. -/
def int64wrap (v : Int) : Int :=
  let m := v.emod (2 ^ 64)
  if m < 2 ^ 63 then m else m - 2 ^ 64

/-- The exponent loop of `getSupabasePublicKey`:
`for _, b := range eBytes { eInt = eInt<<8 | int(b) }` on a Go `int`.
Since the low byte of the shifted value is zero, the bitwise or is
addition. -/
def bytesToGoInt (bs : List Nat) : Int :=
  bs.foldl (fun acc b => int64wrap (acc * 256) + Int.ofNat b) 0

/-- `rsa.PublicKey`: modulus (`big.Int`, non-negative) and exponent
(Go `int`). -/
structure RSAPublicKey where
  n : Nat
  e : Int
  deriving DecidableEq, Repr

/-- One element of the JWKS document's `keys` array. -/
structure JWKSKey where
  kty : String
  use : String
  kid : String
  n : String
  e : String
  deriving DecidableEq, Repr

/-- Outcome of the single `http.Get(jwksURL)` performed during one key
resolution: either the request itself errors, or a response arrives with a
status code and a body that either fails JSON decoding or yields the list
of keys. -/
inductive FetchResult where
  | netError : FetchResult
  | response (status : Nat) (body : Except Unit (List JWKSKey)) : FetchResult
  deriving DecidableEq, Repr

/-- The package-level mutable state: `cachedKeys : map[string]*rsa.PublicKey`
and `cacheExpiries : map[string]time.Time`, modelled as association lists
observed only through lookup. -/
structure CacheState where
  cachedKeys : List (String × RSAPublicKey)
  cacheExpiries : List (String × Int)
  deriving DecidableEq, Repr

/-- `cacheTTL = 1 * time.Hour` in nanoseconds. -/
def cacheTTL : Int := 3600 * 1000000000

/-- `gracePeriod = 5 * time.Minute` in nanoseconds. -/
def gracePeriod : Int := 300 * 1000000000

/-- Go map assignment `m[k] = v` on the association-list model: replaces
the binding for `k` if present, otherwise appends it. -/
def mapInsert (k : String) (v : α) : List (String × α) → List (String × α)
  | [] => [(k, v)]
  | (k2, v2) :: rest =>
    if k2 == k then (k, v) :: rest else (k2, v2) :: mapInsert k v rest

/-- The fresh-cache check of `getSupabasePublicKey` (both the read-locked
fast path and the double-check after taking the write lock): the key for
`kid` when both maps hold an entry and `now.Before(expiry)`. -/
def freshLookup (st : CacheState) (now : Int) (kid : String) : Option RSAPublicKey :=
  match st.cachedKeys.lookup kid, st.cacheExpiries.lookup kid with
  | some key, some expiry => if now < expiry then some key else none
  | _, _ => none

/-- The stale-key computation of `getSupabasePublicKey`: the cached key for
`kid` when both maps hold an entry and `now.Before(expiry.Add(gracePeriod))`. -/
def staleLookup (st : CacheState) (now : Int) (kid : String) : Option RSAPublicKey :=
  match st.cachedKeys.lookup kid, st.cacheExpiries.lookup kid with
  | some key, some expiry => if now < expiry + gracePeriod then some key else none
  | _, _ => none

/-- The repeated fetch-failure pattern of `getSupabasePublicKey`: serve the
stale key when one is available within the grace period, otherwise fail;
the cache is returned untouched either way. -/
def staleOr (staleKey : Option RSAPublicKey) (msg : String) (st : CacheState) :
    Except String RSAPublicKey × CacheState :=
  match staleKey with
  | some k => (Except.ok k, st)
  | none => (Except.error msg, st)

/-- `getSupabasePublicKey(supabaseURL, kid)` of the current revision.
`fetch` stands for the outcome of the `http.Get` on the JWKS URL derived
from `supabaseURL`; the cache state is explicit; `now` is the single
`time.Now()` taken at entry. Sequentially, the double-check after the
write lock repeats the read-locked check, so both appear as `freshLookup`
matches. On a successful fetch, only the key whose `kid` matches is built
and installed (with expiry `now + cacheTTL`); a missing `kid` is a hard
failure with no stale fallback, while every fetch-stage failure and the
modulus/exponent decode failures fall back to the stale key when one is
within the grace period. -/
def getSupabasePublicKey (fetch : FetchResult) (st : CacheState) (now : Int)
    (kid : String) : Except String RSAPublicKey × CacheState :=
  match freshLookup st now kid with
  | some key => (Except.ok key, st)
  | none =>
    match freshLookup st now kid with
    | some key => (Except.ok key, st)
    | none =>
      let staleKey := staleLookup st now kid
      match fetch with
      | FetchResult.netError => staleOr staleKey "failed to fetch JWKS" st
      | FetchResult.response status body =>
        if status ≠ 200 then staleOr staleKey "failed to fetch JWKS: bad status" st
        else
          match body with
          | Except.error _ => staleOr staleKey "failed to decode JWKS" st
          | Except.ok keys =>
            if keys.isEmpty then staleOr staleKey "no keys found in JWKS" st
            else
              match keys.find? (fun k => k.kid == kid) with
              | none =>
                (Except.error ("key with kid " ++ kid ++ " not found in JWKS"), st)
              | some key =>
                match b64urlDecode key.n with
                | none => staleOr staleKey "failed to decode modulus" st
                | some nBytes =>
                  match b64urlDecode key.e with
                  | none => staleOr staleKey "failed to decode exponent" st
                  | some eBytes =>
                    let publicKey : RSAPublicKey :=
                      { n := bytesBE nBytes, e := bytesToGoInt eBytes }
                    (Except.ok publicKey,
                     { cachedKeys := mapInsert kid publicKey st.cachedKeys,
                       cacheExpiries := mapInsert kid (now + cacheTTL) st.cacheExpiries })

/-- A fetch that fails in the sense of the middleware: network error,
non-`200` status, JSON decode failure, or an empty `keys` array. -/
def fetchFailed : FetchResult → Bool
  | FetchResult.netError => true
  | FetchResult.response status body =>
    status != 200 ||
      (match body with
       | Except.error _ => true
       | Except.ok keys => keys.isEmpty)

/-- A JSON claim value as far as the middleware inspects claims: Go type
assertions `.(string)` succeed only on `str`, the `exp` / `nbf` numeric
dates only on `num` (seconds, held as an integer instant). -/
inductive ClaimValue where
  | str (s : String) : ClaimValue
  | num (t : Int) : ClaimValue
  | other : ClaimValue
  deriving DecidableEq, Repr

/-- The key returned by the middleware's keyfunc: `[]byte(jwtSecret)` for
the HMAC family, the resolved RSA public key for the RSA family. -/
inductive SigningKey where
  | secret (s : String) : SigningKey
  | rsaKey (k : RSAPublicKey) : SigningKey
  deriving DecidableEq, Repr

/-- The signing method declared by the token header, as the keyfunc
discriminates it by Go type assertion: the `jwt.SigningMethodHMAC` family,
the `jwt.SigningMethodRSA` family, or anything else (carrying the `alg`
header string; the "none" algorithm falls here). -/
inductive SigningMethod where
  | hmac (alg : String) : SigningMethod
  | rsa (alg : String) : SigningMethod
  | other (alg : String) : SigningMethod
  deriving DecidableEq, Repr

/-- A structurally well-formed token as `ParseUnverified` exposes it:
method and optional `kid` from the header, the claims map, and — standing
in for the cryptographic signature — the key the token was actually signed
with (`none` for a signature that matches no key). -/
structure ParsedToken where
  method : SigningMethod
  kid : Option String
  claims : List (String × ClaimValue)
  signedWith : Option SigningKey
  deriving DecidableEq, Repr

/-- `jwt.NewParser().ParseUnverified`: the compact serialization must have
exactly three dot-separated segments; decoding of the header and claims
segments is abstracted by the `decode` parameter (base64/JSON decoding of
the wire format, external to this repository). -/
def parseUnverified (decode : String → Option ParsedToken) (tokenString : String) :
    Option ParsedToken :=
  if (goSplit tokenString '.').length ≠ 3 then none
  else decode tokenString

/-- The Authorization-header processing of `Auth` (also factored out as
`extractTokenFromHeader` in the refactored revision): empty header fails as
missing, then `strings.Split(authHeader, " ")` must yield exactly two parts
with the first equal to `Bearer`; the second part is the raw token. -/
def extractTokenFromHeader (authHeader : String) : Except String String :=
  if authHeader = "" then Except.error "Missing Authorization header"
  else
    let parts := goSplit authHeader ' '
    if parts.length ≠ 2 ∨ parts.headD "" ≠ "Bearer" then
      Except.error "Invalid Authorization header format"
    else Except.ok (parts.getD 1 "")

/-- The keyfunc passed to `jwt.Parse` (lines 75-97), with the cache state
threaded through the RSA branch: HMAC requires `JWT_SECRET`, RSA requires
`SUPABASE_URL` and a non-empty `kid` and resolves via
`getSupabasePublicKey`, any other method is rejected. -/
def authKeyfunc (method : SigningMethod) (kid : String)
    (jwtSecret supabaseURL : String) (fetch : FetchResult) (st : CacheState)
    (now : Int) : Except String SigningKey × CacheState :=
  match method with
  | SigningMethod.hmac _ =>
    (if jwtSecret = "" then Except.error "JWT_SECRET not configured"
     else Except.ok (SigningKey.secret jwtSecret), st)
  | SigningMethod.rsa _ =>
    if supabaseURL = "" then (Except.error "SUPABASE_URL not configured for RS256", st)
    else if kid = "" then (Except.error "kid header missing from token", st)
    else
      match getSupabasePublicKey fetch st now kid with
      | (Except.ok k, st2) => (Except.ok (SigningKey.rsaKey k), st2)
      | (Except.error e, st2) => (Except.error e, st2)
  | SigningMethod.other alg =>
    (Except.error ("unexpected signing method: " ++ alg), st)

/-- The `exp` check of the golang-jwt v5 default validator invoked by
`jwt.Parse` (zero leeway, claim optional): when present as a numeric date
it must be strictly after `now` (`cmp.Before(exp)`); a non-numeric `exp`
is a type error. -/
def checkExp (claims : List (String × ClaimValue)) (now : Int) : Except String Unit :=
  match claims.lookup "exp" with
  | none => Except.ok ()
  | some (ClaimValue.num e) =>
    if now < e then Except.ok () else Except.error "token is expired"
  | some _ => Except.error "exp is invalid"

/-- The `nbf` check of the golang-jwt v5 default validator (zero leeway,
claim optional): when present, `now` must not be before it. -/
def checkNbf (claims : List (String × ClaimValue)) (now : Int) : Except String Unit :=
  match claims.lookup "nbf" with
  | none => Except.ok ()
  | some (ClaimValue.num n) =>
    if n ≤ now then Except.ok () else Except.error "token is not valid yet"
  | some _ => Except.error "nbf is invalid"

/-- The golang-jwt v5 claims validation performed inside `jwt.Parse`:
expiry then not-before (issued-at is only checked when explicitly
enabled, which the middleware does not do). -/
def validateClaims (claims : List (String × ClaimValue)) (now : Int) : Except String Unit :=
  match checkExp claims now with
  | Except.error e => Except.error e
  | Except.ok _ => checkNbf claims now

/-- The verification `jwt.Parse` performs after the keyfunc returns: the
signature must verify under exactly the returned key (abstracted as the
token recording its actual signing key), then the claims are validated. -/
def jwtVerify (t : ParsedToken) (key : SigningKey) (now : Int) : Except String Unit :=
  if t.signedWith = some key then validateClaims t.claims now
  else Except.error "signature is invalid"

/-- The claim-to-identity extraction inlined in `Auth` (lines 135-147):
the first of `sub`, `user_id`, `id` that is present with a string value
wins — with no non-emptiness requirement. -/
def extractUserIDv1 (claims : List (String × ClaimValue)) : Option String :=
  match claims.lookup "sub" with
  | some (ClaimValue.str s) => some s
  | _ =>
    match claims.lookup "user_id" with
    | some (ClaimValue.str s) => some s
    | _ =>
      match claims.lookup "id" with
      | some (ClaimValue.str s) => some s
      | _ => none

/-- Candidate-claim filter of the refactored revision: a claim value that
is present as a non-empty string. -/
def nonEmptyStr : Option ClaimValue → Option String
  | some (ClaimValue.str s) => if s = "" then none else some s
  | _ => none

/-- `extractUserIDFromClaims` of the refactored revision (lines 457-468):
like the inline extraction but each candidate must also be non-empty. -/
def extractUserIDFromClaims (claims : List (String × ClaimValue)) : Except String String :=
  match nonEmptyStr (claims.lookup "sub") with
  | some s => Except.ok s
  | none =>
    match nonEmptyStr (claims.lookup "user_id") with
    | some s => Except.ok s
    | none =>
      match nonEmptyStr (claims.lookup "id") with
      | some s => Except.ok s
      | none => Except.error "user ID not found in token"

/-- Outcome of one `Auth` handler invocation: either control passes to the
next handler with the user identity attached, or a 401 Unauthorized
response with the given `error` body field. Both carry the cache state
after the call. -/
inductive AuthOutcome where
  | success (userID : String) (st : CacheState) : AuthOutcome
  | unauthorized (message : String) (st : CacheState) : AuthOutcome
  deriving DecidableEq, Repr

/-- The caller-visible error message of an outcome, `none` on success. -/
def AuthOutcome.message? : AuthOutcome → Option String
  | AuthOutcome.success _ _ => none
  | AuthOutcome.unauthorized m _ => some m

/-- The `Auth` middleware handler body (lines 33-153) for one request:
header extraction, `ParseUnverified` (failure: "Invalid token"), then
`jwt.Parse` with the keyfunc — any keyfunc or verification error is
reported as the generic "Authentication failed" — and finally the inline
user-ID extraction (failure: "User ID not found in token"). `decode`
abstracts wire-format decoding, `fetch` the JWKS HTTP call, `st`/`now` the
package state and clock. -/
def Auth (jwtSecret supabaseURL : String) (decode : String → Option ParsedToken)
    (fetch : FetchResult) (st : CacheState) (now : Int) (authHeader : String) :
    AuthOutcome :=
  match extractTokenFromHeader authHeader with
  | Except.error msg => AuthOutcome.unauthorized msg st
  | Except.ok tokenString =>
    match parseUnverified decode tokenString with
    | none => AuthOutcome.unauthorized "Invalid token" st
    | some parsed =>
      let kid := parsed.kid.getD ""
      match authKeyfunc parsed.method kid jwtSecret supabaseURL fetch st now with
      | (Except.error _, st2) => AuthOutcome.unauthorized "Authentication failed" st2
      | (Except.ok key, st2) =>
        match jwtVerify parsed key now with
        | Except.error _ => AuthOutcome.unauthorized "Authentication failed" st2
        | Except.ok _ =>
          match extractUserIDv1 parsed.claims with
          | some userID => AuthOutcome.success userID st2
          | none => AuthOutcome.unauthorized "User ID not found in token" st2

/-! ### Helper lemmas -/

theorem mapInsert_lookup_self (k : String) (v : α) (m : List (String × α)) :
    (mapInsert k v m).lookup k = some v := by
  induction m with
  | nil => simp [mapInsert, List.lookup]
  | cons p rest ih =>
    obtain ⟨k2, v2⟩ := p
    by_cases h : k2 = k
    · subst h; simp [mapInsert, List.lookup]
    · have hb : (k == k2) = false := beq_eq_false_iff_ne.mpr (Ne.symm h)
      simp [mapInsert, List.lookup, h, hb, ih]

theorem mapInsert_lookup_ne (k k2 : String) (v : α) (m : List (String × α))
    (hne : k2 ≠ k) : (mapInsert k v m).lookup k2 = m.lookup k2 := by
  have hb : (k2 == k) = false := beq_eq_false_iff_ne.mpr hne
  induction m with
  | nil => simp [mapInsert, List.lookup, hb]
  | cons p rest ih =>
    obtain ⟨k3, v3⟩ := p
    by_cases h : k3 = k
    · subst h; simp [mapInsert, List.lookup, hb, ih]
    · simp [mapInsert, List.lookup, h, ih]

theorem staleOr_snd (sk : Option RSAPublicKey) (msg : String) (st : CacheState) :
    (staleOr sk msg st).2 = st := by
  cases sk <;> rfl

theorem freshLookup_eq_none_of_stale (st : CacheState) (now : Int) (kid : String)
    (h : staleLookup st now kid = none) : freshLookup st now kid = none := by
  unfold freshLookup
  unfold staleLookup at h
  cases h1 : st.cachedKeys.lookup kid with
  | none => rfl
  | some key =>
    cases h2 : st.cacheExpiries.lookup kid with
    | none => rfl
    | some expiry =>
      rw [h1, h2] at h
      by_cases hl : now < expiry
      · exfalso
        have : now < expiry + gracePeriod := by
          have hg : (0 : Int) < gracePeriod := by decide
          omega
        simp [this] at h
      · simp [hl]

theorem resolve_fail_eq_staleOr (f : FetchResult) (st : CacheState) (now : Int)
    (kid : String) (hf : fetchFailed f = true)
    (hfresh : freshLookup st now kid = none) :
    ∃ msg, getSupabasePublicKey f st now kid
      = staleOr (staleLookup st now kid) msg st := by
  cases f with
  | netError =>
    exact ⟨"failed to fetch JWKS", by simp [getSupabasePublicKey, hfresh]⟩
  | response status body =>
    by_cases hs : status = 200
    · subst hs
      cases body with
      | error u =>
        exact ⟨"failed to decode JWKS", by simp [getSupabasePublicKey, hfresh]⟩
      | ok keys =>
        have hkeys : keys.isEmpty = true := by
          simpa [fetchFailed] using hf
        exact ⟨"no keys found in JWKS",
          by simp [getSupabasePublicKey, hfresh, hkeys]⟩
    · exact ⟨"failed to fetch JWKS: bad status",
        by simp [getSupabasePublicKey, hfresh, hs]⟩


/-! ### Claim theorems: key resolution -/

/-- C1: when the remote key-set fetch fully succeeds (status 200, decodable,
non-empty) but the requested key identifier is absent from the freshly
fetched set, `getSupabasePublicKey` fails with the kid-not-found error and
returns no stale cached key, even though a cached entry for that identifier
exists and is within the grace period; the cache is left unchanged. -/
theorem resolve_kid_absent_hard_failure (st : CacheState) (now : Int) (kid : String)
    (keys : List JWKSKey) (k0 : RSAPublicKey) (e0 : Int)
    (hk : st.cachedKeys.lookup kid = some k0)
    (he : st.cacheExpiries.lookup kid = some e0)
    (hexp : e0 ≤ now)
    (_hgrace : now < e0 + gracePeriod)
    (hne : keys ≠ [])
    (hfind : keys.find? (fun k => k.kid == kid) = none) :
    getSupabasePublicKey (FetchResult.response 200 (Except.ok keys)) st now kid
      = (Except.error ("key with kid " ++ kid ++ " not found in JWKS"), st) := by
  have hfresh : freshLookup st now kid = none := by
    unfold freshLookup
    rw [hk, he]
    simp [not_lt.mpr hexp]
  have hkeys : keys.isEmpty = false := by
    cases keys with
    | nil => exact absurd rfl hne
    | cons a l => rfl
  simp [getSupabasePublicKey, hfresh, hkeys, hfind]

/-- C1 witness: a concrete expired-but-in-grace cache entry for kid `a`
and a successful fetch containing only kid `b`. -/
theorem resolve_kid_absent_hard_failure_witness :
    getSupabasePublicKey
        (FetchResult.response 200 (Except.ok
          [{ kty := "RSA", use := "sig", kid := "b", n := "AQAB", e := "AQAB" }]))
        { cachedKeys := [("a", { n := 3, e := 5 })], cacheExpiries := [("a", 0)] }
        1 "a"
      = (Except.error ("key with kid " ++ "a" ++ " not found in JWKS"),
         { cachedKeys := [("a", { n := 3, e := 5 })], cacheExpiries := [("a", 0)] }) :=
  resolve_kid_absent_hard_failure
    { cachedKeys := [("a", { n := 3, e := 5 })], cacheExpiries := [("a", 0)] }
    1 "a" [{ kty := "RSA", use := "sig", kid := "b", n := "AQAB", e := "AQAB" }]
    { n := 3, e := 5 } 0 (by decide) (by decide) (by decide) (by decide)
    (by decide) (by decide)

/-- C2: on any failing fetch (network error, non-success status,
undecodable payload, or empty key set), `getSupabasePublicKey` returns the
cached key for the identifier whenever an entry exists and `now` is before
`expiresAt + gracePeriod`, and otherwise fails; in both cases the cache is
unchanged. -/
theorem resolve_fetch_failure_stale_fallback (f : FetchResult) (st : CacheState)
    (now : Int) (kid : String) (hf : fetchFailed f = true) :
    (∀ k0 e0, st.cachedKeys.lookup kid = some k0 →
      st.cacheExpiries.lookup kid = some e0 → now < e0 + gracePeriod →
      getSupabasePublicKey f st now kid = (Except.ok k0, st))
    ∧ ((∀ k0 e0, st.cachedKeys.lookup kid = some k0 →
        st.cacheExpiries.lookup kid = some e0 → e0 + gracePeriod ≤ now) →
      ∃ msg, getSupabasePublicKey f st now kid = (Except.error msg, st)) := by
  constructor
  · intro k0 e0 hk he hg
    by_cases hl : now < e0
    · have hfresh : freshLookup st now kid = some k0 := by
        unfold freshLookup
        rw [hk, he]
        simp [hl]
      simp [getSupabasePublicKey, hfresh]
    · have hfresh : freshLookup st now kid = none := by
        unfold freshLookup
        rw [hk, he]
        simp [hl]
      have hstale : staleLookup st now kid = some k0 := by
        unfold staleLookup
        rw [hk, he]
        simp [hg]
      obtain ⟨msg, hmsg⟩ := resolve_fail_eq_staleOr f st now kid hf hfresh
      rw [hmsg, hstale]
      rfl
  · intro hnone
    have hstale : staleLookup st now kid = none := by
      unfold staleLookup
      cases h1 : st.cachedKeys.lookup kid with
      | none => rfl
      | some k0 =>
        cases h2 : st.cacheExpiries.lookup kid with
        | none => rfl
        | some e0 =>
          have := hnone k0 e0 h1 h2
          simp [not_lt.mpr this]
    have hfresh := freshLookup_eq_none_of_stale st now kid hstale
    obtain ⟨msg, hmsg⟩ := resolve_fail_eq_staleOr f st now kid hf hfresh
    refine ⟨msg, ?_⟩
    rw [hmsg, hstale]
    rfl

/-- C2 witness: a network error with an entry for kid `a` that expired at 0
but is queried at time 1, well within the grace period: the stale key is
served and the cache is untouched. -/
theorem resolve_fetch_failure_stale_fallback_witness :
    getSupabasePublicKey FetchResult.netError
        { cachedKeys := [("a", { n := 3, e := 5 })], cacheExpiries := [("a", 0)] }
        1 "a"
      = (Except.ok { n := 3, e := 5 },
         { cachedKeys := [("a", { n := 3, e := 5 })], cacheExpiries := [("a", 0)] }) :=
  (resolve_fetch_failure_stale_fallback FetchResult.netError
      { cachedKeys := [("a", { n := 3, e := 5 })], cacheExpiries := [("a", 0)] }
      1 "a" (by decide)).1
    { n := 3, e := 5 } 0 (by decide) (by decide) (by decide)

/-- C7: a fetch that fails at any stage (network error, non-success status,
decode failure, empty key set) leaves the cache state exactly as it was. -/
theorem resolve_fetch_failure_cache_unchanged (f : FetchResult) (st : CacheState)
    (now : Int) (kid : String) (hf : fetchFailed f = true) :
    (getSupabasePublicKey f st now kid).2 = st := by
  cases hfresh : freshLookup st now kid with
  | some key => simp [getSupabasePublicKey, hfresh]
  | none =>
    obtain ⟨msg, hmsg⟩ := resolve_fail_eq_staleOr f st now kid hf hfresh
    rw [hmsg]
    exact staleOr_snd _ _ _

/-- C7 witness: a 500 response against a populated cache leaves it
identical. -/
theorem resolve_fetch_failure_cache_unchanged_witness :
    (getSupabasePublicKey (FetchResult.response 500 (Except.error ()))
        { cachedKeys := [("z", { n := 7, e := 3 })], cacheExpiries := [("z", 50)] }
        9 "z").2
      = { cachedKeys := [("z", { n := 7, e := 3 })], cacheExpiries := [("z", 50)] } :=
  resolve_fetch_failure_cache_unchanged (FetchResult.response 500 (Except.error ()))
    { cachedKeys := [("z", { n := 7, e := 3 })], cacheExpiries := [("z", 50)] }
    9 "z" (by decide)


/-- C3 counterexample: a successful fetch returning keys for both `a` and
`b`, resolved for kid `a` against an empty cache, installs no entry for
`b` even though `b` is in the returned set (while `a` is installed), so
not every key of the set is installed. -/
theorem resolve_installs_only_requested_kid_counterexample :
    ((getSupabasePublicKey
        (FetchResult.response 200 (Except.ok
          [{ kty := "RSA", use := "sig", kid := "a", n := "AQAB", e := "AQAB" },
           { kty := "RSA", use := "sig", kid := "b", n := "AQAB", e := "AQAB" }]))
        { cachedKeys := [], cacheExpiries := [] } 0 "a").2.cachedKeys.lookup "b"
      = none)
    ∧ (([{ kty := "RSA", use := "sig", kid := "a", n := "AQAB", e := "AQAB" },
         { kty := "RSA", use := "sig", kid := "b", n := "AQAB", e := "AQAB" }]
          : List JWKSKey).find? (fun k => k.kid == "b")).isSome = true
    ∧ ((getSupabasePublicKey
        (FetchResult.response 200 (Except.ok
          [{ kty := "RSA", use := "sig", kid := "a", n := "AQAB", e := "AQAB" },
           { kty := "RSA", use := "sig", kid := "b", n := "AQAB", e := "AQAB" }]))
        { cachedKeys := [], cacheExpiries := [] } 0 "a").2.cachedKeys.lookup "a"
      ≠ none) := by
  refine ⟨by decide, by decide, by decide⟩

/-- C3 amended: on a successful fetch in which the requested identifier is
found and its key material decodes, exactly the entry for the requested
identifier is installed fresh (key built from the decoded modulus and
exponent, expiry `now + cacheTTL`), and every other identifier's cache
entries are untouched; no other key of the returned set is installed. -/
theorem resolve_success_installs_requested_kid (st : CacheState) (now : Int)
    (kid : String) (keys : List JWKSKey) (key : JWKSKey) (nB eB : List Nat)
    (hfresh : freshLookup st now kid = none)
    (hne : keys ≠ [])
    (hfind : keys.find? (fun k => k.kid == kid) = some key)
    (hn : b64urlDecode key.n = some nB)
    (he : b64urlDecode key.e = some eB) :
    ((getSupabasePublicKey (FetchResult.response 200 (Except.ok keys)) st now kid).1
        = Except.ok { n := bytesBE nB, e := bytesToGoInt eB })
    ∧ ((getSupabasePublicKey (FetchResult.response 200 (Except.ok keys)) st now kid).2.cachedKeys.lookup kid
        = some { n := bytesBE nB, e := bytesToGoInt eB })
    ∧ ((getSupabasePublicKey (FetchResult.response 200 (Except.ok keys)) st now kid).2.cacheExpiries.lookup kid
        = some (now + cacheTTL))
    ∧ (∀ k2, k2 ≠ kid →
        ((getSupabasePublicKey (FetchResult.response 200 (Except.ok keys)) st now kid).2.cachedKeys.lookup k2
            = st.cachedKeys.lookup k2)
        ∧ ((getSupabasePublicKey (FetchResult.response 200 (Except.ok keys)) st now kid).2.cacheExpiries.lookup k2
            = st.cacheExpiries.lookup k2)) := by
  have hkeys : keys.isEmpty = false := by
    cases keys with
    | nil => exact absurd rfl hne
    | cons a l => rfl
  have hrun : getSupabasePublicKey (FetchResult.response 200 (Except.ok keys)) st now kid
      = (Except.ok { n := bytesBE nB, e := bytesToGoInt eB },
         { cachedKeys := mapInsert kid { n := bytesBE nB, e := bytesToGoInt eB } st.cachedKeys,
           cacheExpiries := mapInsert kid (now + cacheTTL) st.cacheExpiries }) := by
    simp [getSupabasePublicKey, hfresh, hkeys, hfind, hn, he]
  refine ⟨by rw [hrun], ?_, ?_, ?_⟩
  · rw [hrun]
    exact mapInsert_lookup_self kid _ st.cachedKeys
  · rw [hrun]
    exact mapInsert_lookup_self kid _ st.cacheExpiries
  · intro k2 hk2
    rw [hrun]
    exact ⟨mapInsert_lookup_ne kid k2 _ st.cachedKeys hk2,
           mapInsert_lookup_ne kid k2 _ st.cacheExpiries hk2⟩

/-- C3 amended witness: resolving kid `a` from an empty cache on a
successful two-key fetch yields the RSA key decoded from `AQAB`/`AQAB`
(modulus and exponent 65537). -/
theorem resolve_success_installs_requested_kid_witness :
    (getSupabasePublicKey
        (FetchResult.response 200 (Except.ok
          [{ kty := "RSA", use := "sig", kid := "a", n := "AQAB", e := "AQAB" },
           { kty := "RSA", use := "sig", kid := "c", n := "AQAB", e := "AQAB" }]))
        { cachedKeys := [], cacheExpiries := [] } 0 "a").1
      = Except.ok { n := bytesBE [1, 0, 1], e := bytesToGoInt [1, 0, 1] } :=
  (resolve_success_installs_requested_kid
    { cachedKeys := [], cacheExpiries := [] } 0 "a"
    [{ kty := "RSA", use := "sig", kid := "a", n := "AQAB", e := "AQAB" },
     { kty := "RSA", use := "sig", kid := "c", n := "AQAB", e := "AQAB" }]
    { kty := "RSA", use := "sig", kid := "a", n := "AQAB", e := "AQAB" }
    [1, 0, 1] [1, 0, 1] (by decide) (by decide) (by decide) (by decide)
    (by decide)).1


/-! ### Claim theorems: the Auth handler -/

theorem extractToken_of_split (hdr tok : String)
    (h : goSplit hdr ' ' = ["Bearer", tok]) :
    extractTokenFromHeader hdr = Except.ok tok := by
  have hne : hdr ≠ "" := by
    intro he
    subst he
    have h0 : goSplit "" ' ' = [""] := by decide
    rw [h0] at h
    simp at h
  unfold extractTokenFromHeader
  rw [if_neg hne]
  simp [h]

/-- C4: a token whose header declares a signing method outside both the
HMAC and the RSA families (in particular the "none" algorithm) is rejected
by `Auth` with the generic failure, for every configuration (secret present
or not, remote URL present or not), every fetch outcome, every cache state
and every claims content; the cache is untouched. -/
theorem auth_rejects_unsupported_algorithm (jwtSecret supabaseURL : String)
    (decode : String → Option ParsedToken) (fetch : FetchResult)
    (st : CacheState) (now : Int) (hdr tok : String) (parsed : ParsedToken)
    (alg : String)
    (hsplit : goSplit hdr ' ' = ["Bearer", tok])
    (hparse : parseUnverified decode tok = some parsed)
    (hmethod : parsed.method = SigningMethod.other alg) :
    Auth jwtSecret supabaseURL decode fetch st now hdr
      = AuthOutcome.unauthorized "Authentication failed" st := by
  simp [Auth, extractToken_of_split hdr tok hsplit, hparse, authKeyfunc, hmethod]

/-- C4 witness: an alg-none token under a fully populated configuration is
rejected. -/
theorem auth_rejects_unsupported_algorithm_witness :
    Auth "secret" "https://supabase.example"
        (fun _ => some { method := SigningMethod.other "none", kid := some "a",
                         claims := [("sub", ClaimValue.str "user-42"),
                                    ("exp", ClaimValue.num 1000)],
                         signedWith := none })
        FetchResult.netError { cachedKeys := [], cacheExpiries := [] } 0
        "Bearer a.b.c"
      = AuthOutcome.unauthorized "Authentication failed"
          { cachedKeys := [], cacheExpiries := [] } :=
  auth_rejects_unsupported_algorithm "secret" "https://supabase.example"
    (fun _ => some { method := SigningMethod.other "none", kid := some "a",
                     claims := [("sub", ClaimValue.str "user-42"),
                                ("exp", ClaimValue.num 1000)],
                     signedWith := none })
    FetchResult.netError { cachedKeys := [], cacheExpiries := [] } 0
    "Bearer a.b.c" "a.b.c"
    { method := SigningMethod.other "none", kid := some "a",
      claims := [("sub", ClaimValue.str "user-42"),
                 ("exp", ClaimValue.num 1000)],
      signedWith := none }
    "none" (by decide) (by decide) (by decide)

/-- C5 counterexample: two failing `Auth` calls whose caller-visible error
bodies differ — a missing Authorization header reports "Missing
Authorization header" while a malformed one reports "Invalid Authorization
header format" — so failures are not all mapped to one generic response. -/
theorem auth_failure_responses_differ_counterexample :
    (Auth "s" "" (fun _ => none) FetchResult.netError
        { cachedKeys := [], cacheExpiries := [] } 0 "").message?
      = some "Missing Authorization header"
    ∧ (Auth "s" "" (fun _ => none) FetchResult.netError
        { cachedKeys := [], cacheExpiries := [] } 0 "Token x").message?
      = some "Invalid Authorization header format"
    ∧ ("Missing Authorization header" : String)
      ≠ "Invalid Authorization header format" := by
  refine ⟨by decide, by decide, by decide⟩

/-- C5 amended: failures are not uniform across all stages, but every
failure inside token validation — keyfunc errors (unsupported algorithm,
missing configuration, key-resolution failure) and verification errors
(bad signature, expired or not-yet-valid claims) — is mapped to the one
generic "Authentication failed" body, whatever the internal error was. -/
theorem auth_validation_failures_generic (jwtSecret supabaseURL : String)
    (decode : String → Option ParsedToken) (fetch : FetchResult)
    (st : CacheState) (now : Int) (hdr tok : String) (parsed : ParsedToken)
    (hsplit : goSplit hdr ' ' = ["Bearer", tok])
    (hparse : parseUnverified decode tok = some parsed) :
    (∀ e st2, authKeyfunc parsed.method (parsed.kid.getD "") jwtSecret supabaseURL
        fetch st now = (Except.error e, st2) →
      Auth jwtSecret supabaseURL decode fetch st now hdr
        = AuthOutcome.unauthorized "Authentication failed" st2)
    ∧ (∀ key st2 e2, authKeyfunc parsed.method (parsed.kid.getD "") jwtSecret
        supabaseURL fetch st now = (Except.ok key, st2) →
      jwtVerify parsed key now = Except.error e2 →
      Auth jwtSecret supabaseURL decode fetch st now hdr
        = AuthOutcome.unauthorized "Authentication failed" st2) := by
  constructor
  · intro e st2 hk
    simp [Auth, extractToken_of_split hdr tok hsplit, hparse, hk]
  · intro key st2 e2 hk hv
    simp [Auth, extractToken_of_split hdr tok hsplit, hparse, hk, hv]

/-- C5 amended witness: with no configured secret, an HMAC token fails in
the keyfunc with a configuration error yet the caller sees only the
generic body. -/
theorem auth_validation_failures_generic_witness :
    Auth "" "" (fun _ => some { method := SigningMethod.hmac "HS256", kid := none,
                                claims := [], signedWith := none })
        FetchResult.netError { cachedKeys := [], cacheExpiries := [] } 0
        "Bearer a.b.c"
      = AuthOutcome.unauthorized "Authentication failed"
          { cachedKeys := [], cacheExpiries := [] } :=
  (auth_validation_failures_generic "" ""
      (fun _ => some { method := SigningMethod.hmac "HS256", kid := none,
                       claims := [], signedWith := none })
      FetchResult.netError { cachedKeys := [], cacheExpiries := [] } 0
      "Bearer a.b.c" "a.b.c"
      { method := SigningMethod.hmac "HS256", kid := none, claims := [],
        signedWith := none }
      (by decide) (by decide)).1
    "JWT_SECRET not configured" { cachedKeys := [], cacheExpiries := [] }
    (by decide)


/-- Whether an optional claim value is present with a string type, the
discriminating condition of the Go type assertion `.(string)`. -/
def isStrClaim : Option ClaimValue → Bool
  | some (ClaimValue.str _) => true
  | _ => false

/-- C6 counterexample: a valid HMAC token whose `sub` claim is present but
empty and whose `user_id` is the non-empty `u1` authenticates with
identity `""`, not `u1` — the inline extraction takes the first *present*
string candidate without requiring non-emptiness, and no claim-missing
failure occurs. -/
theorem auth_identity_empty_sub_counterexample :
    Auth "s" "" (fun t => if t = "h.c.s" then
          some { method := SigningMethod.hmac "HS256", kid := none,
                 claims := [("sub", ClaimValue.str ""),
                            ("user_id", ClaimValue.str "u1"),
                            ("exp", ClaimValue.num 100)],
                 signedWith := some (SigningKey.secret "s") }
        else none)
        FetchResult.netError { cachedKeys := [], cacheExpiries := [] } 0
        "Bearer h.c.s"
      = AuthOutcome.success "" { cachedKeys := [], cacheExpiries := [] }
    ∧ ("" : String) ≠ "u1" := by
  refine ⟨by decide, by decide⟩

/-- C6 amended: the identity is the first of `sub`, `user_id`, `id` that is
present with a string value, regardless of emptiness — an empty present
`sub` wins over a non-empty `user_id` — and the claim-missing failure
occurs exactly when none of the three candidates is present as a string.
(The refactored revision's `extractUserIDFromClaims` additionally requires
non-emptiness.) -/
theorem extractUserID_first_present_string (claims : List (String × ClaimValue)) :
    (∀ s, claims.lookup "sub" = some (ClaimValue.str s) →
      extractUserIDv1 claims = some s)
    ∧ (isStrClaim (claims.lookup "sub") = false →
      ∀ s, claims.lookup "user_id" = some (ClaimValue.str s) →
        extractUserIDv1 claims = some s)
    ∧ (isStrClaim (claims.lookup "sub") = false →
      isStrClaim (claims.lookup "user_id") = false →
      ∀ s, claims.lookup "id" = some (ClaimValue.str s) →
        extractUserIDv1 claims = some s)
    ∧ (isStrClaim (claims.lookup "sub") = false →
      isStrClaim (claims.lookup "user_id") = false →
      isStrClaim (claims.lookup "id") = false →
      extractUserIDv1 claims = none) := by
  refine ⟨?_, ?_, ?_, ?_⟩
  · intro s hs
    simp [extractUserIDv1, hs]
  · intro hsub s hs
    cases h1 : claims.lookup "sub" with
    | none => simp [extractUserIDv1, h1, hs]
    | some v =>
      cases v with
      | str s2 => rw [h1] at hsub; simp [isStrClaim] at hsub
      | num t => simp [extractUserIDv1, h1, hs]
      | other => simp [extractUserIDv1, h1, hs]
  · intro hsub huid s hs
    have hs1 : ∀ v, claims.lookup "sub" = some v → (∀ s2, v ≠ ClaimValue.str s2) := by
      intro v hv s2 he
      subst he
      rw [hv] at hsub
      simp [isStrClaim] at hsub
    have hs2 : ∀ v, claims.lookup "user_id" = some v → (∀ s2, v ≠ ClaimValue.str s2) := by
      intro v hv s2 he
      subst he
      rw [hv] at huid
      simp [isStrClaim] at huid
    unfold extractUserIDv1
    cases h1 : claims.lookup "sub" with
    | none =>
      cases h2 : claims.lookup "user_id" with
      | none => simp [hs]
      | some v =>
        cases v with
        | str s2 => exact absurd rfl (hs2 _ h2 s2)
        | num t => simp [hs]
        | other => simp [hs]
    | some v =>
      cases v with
      | str s2 => exact absurd rfl (hs1 _ h1 s2)
      | num t =>
        cases h2 : claims.lookup "user_id" with
        | none => simp [hs]
        | some v2 =>
          cases v2 with
          | str s2 => exact absurd rfl (hs2 _ h2 s2)
          | num t2 => simp [hs]
          | other => simp [hs]
      | other =>
        cases h2 : claims.lookup "user_id" with
        | none => simp [hs]
        | some v2 =>
          cases v2 with
          | str s2 => exact absurd rfl (hs2 _ h2 s2)
          | num t2 => simp [hs]
          | other => simp [hs]
  · intro hsub huid hid
    have hnostr : ∀ name, isStrClaim (claims.lookup name) = false →
        ∀ v, claims.lookup name = some v → (∀ s2, v ≠ ClaimValue.str s2) := by
      intro name hname v hv s2 he
      subst he
      rw [hv] at hname
      simp [isStrClaim] at hname
    unfold extractUserIDv1
    cases h1 : claims.lookup "sub" with
    | none =>
      cases h2 : claims.lookup "user_id" with
      | none =>
        cases h3 : claims.lookup "id" with
        | none => simp
        | some v3 =>
          cases v3 with
          | str s3 => exact absurd rfl (hnostr "id" hid _ h3 s3)
          | num t3 => simp
          | other => simp
      | some v2 =>
        cases v2 with
        | str s2 => exact absurd rfl (hnostr "user_id" huid _ h2 s2)
        | num t2 =>
          cases h3 : claims.lookup "id" with
          | none => simp
          | some v3 =>
            cases v3 with
            | str s3 => exact absurd rfl (hnostr "id" hid _ h3 s3)
            | num t3 => simp
            | other => simp
        | other =>
          cases h3 : claims.lookup "id" with
          | none => simp
          | some v3 =>
            cases v3 with
            | str s3 => exact absurd rfl (hnostr "id" hid _ h3 s3)
            | num t3 => simp
            | other => simp
    | some v =>
      cases v with
      | str s1 => exact absurd rfl (hnostr "sub" hsub _ h1 s1)
      | num t1 =>
        cases h2 : claims.lookup "user_id" with
        | none =>
          cases h3 : claims.lookup "id" with
          | none => simp
          | some v3 =>
            cases v3 with
            | str s3 => exact absurd rfl (hnostr "id" hid _ h3 s3)
            | num t3 => simp
            | other => simp
        | some v2 =>
          cases v2 with
          | str s2 => exact absurd rfl (hnostr "user_id" huid _ h2 s2)
          | num t2 =>
            cases h3 : claims.lookup "id" with
            | none => simp
            | some v3 =>
              cases v3 with
              | str s3 => exact absurd rfl (hnostr "id" hid _ h3 s3)
              | num t3 => simp
              | other => simp
          | other =>
            cases h3 : claims.lookup "id" with
            | none => simp
            | some v3 =>
              cases v3 with
              | str s3 => exact absurd rfl (hnostr "id" hid _ h3 s3)
              | num t3 => simp
              | other => simp
      | other =>
        cases h2 : claims.lookup "user_id" with
        | none =>
          cases h3 : claims.lookup "id" with
          | none => simp
          | some v3 =>
            cases v3 with
            | str s3 => exact absurd rfl (hnostr "id" hid _ h3 s3)
            | num t3 => simp
            | other => simp
        | some v2 =>
          cases v2 with
          | str s2 => exact absurd rfl (hnostr "user_id" huid _ h2 s2)
          | num t2 =>
            cases h3 : claims.lookup "id" with
            | none => simp
            | some v3 =>
              cases v3 with
              | str s3 => exact absurd rfl (hnostr "id" hid _ h3 s3)
              | num t3 => simp
              | other => simp
          | other =>
            cases h3 : claims.lookup "id" with
            | none => simp
            | some v3 =>
              cases v3 with
              | str s3 => exact absurd rfl (hnostr "id" hid _ h3 s3)
              | num t3 => simp
              | other => simp

/-- C6 amended witness: an empty present `sub` beats a non-empty
`user_id`. -/
theorem extractUserID_first_present_string_witness :
    extractUserIDv1 [("sub", ClaimValue.str ""), ("user_id", ClaimValue.str "u9")]
      = some "" :=
  (extractUserID_first_present_string
    [("sub", ClaimValue.str ""), ("user_id", ClaimValue.str "u9")]).1
    "" (by decide)


/-- C8: with an `exp` claim equal to or before the current instant the
claims validation performed inside `jwt.Parse` fails as expired (in
particular at `exp == now` exactly), it succeeds only when `exp` is
strictly in the future, and consequently no verification outcome is
successful for such a token, so `Auth` rejects it. -/
theorem expiry_boundary_rejected_at_now (claims : List (String × ClaimValue))
    (now e : Int) (hexp : claims.lookup "exp" = some (ClaimValue.num e)) :
    (e ≤ now → validateClaims claims now = Except.error "token is expired")
    ∧ (validateClaims claims now = Except.ok () → now < e)
    ∧ (e ≤ now → ∀ t key, ParsedToken.claims t = claims →
        jwtVerify t key now ≠ Except.ok ()) := by
  refine ⟨?_, ?_, ?_⟩
  · intro hle
    simp [validateClaims, checkExp, hexp, not_lt.mpr hle]
  · intro hok
    by_contra hlt
    simp [validateClaims, checkExp, hexp, hlt] at hok
  · intro hle t key hclaims hok
    unfold jwtVerify at hok
    by_cases hs : t.signedWith = some key
    · rw [if_pos hs, hclaims] at hok
      simp [validateClaims, checkExp, hexp, not_lt.mpr hle] at hok
    · rw [if_neg hs] at hok
      exact Except.noConfusion hok

/-- C8 witness: a token whose `exp` equals the current instant (both 50)
fails validation as expired. -/
theorem expiry_boundary_rejected_at_now_witness :
    validateClaims [("exp", ClaimValue.num 50)] 50 = Except.error "token is expired" :=
  (expiry_boundary_rejected_at_now [("exp", ClaimValue.num 50)] 50 50
    (by decide)).1 (by decide)

/-- C10: the header value consisting of exactly `Bearer` and one trailing
space extracts successfully to the empty raw token — neither the missing-
nor the malformed-header failure fires — and the empty token is then
rejected at `ParseUnverified` (it does not have three dot-separated
segments), whatever the wire-format decoder does. -/
theorem bearer_trailing_space_extracts_empty_token :
    extractTokenFromHeader "Bearer " = Except.ok ""
    ∧ ∀ decode, parseUnverified decode "" = none := by
  exact ⟨by decide, fun _ => rfl⟩

end Middleware
